import Mathlib

/-!
Shallow embedding of the product CRUD service:
  - `src/backend/db.js`   — the persistence gateway (Mongo driver calls and
    the continuations in its promise chains),
  - `src/backend/index.js` — the HTTP router with express-validator rules,
  - `src/unnamed/part_000` — the route-definition variant whose `image_url`
    validation rule is commented out.

Modelling conventions:
  - A parsed JSON body is an association list of field name / value pairs
    (`Doc`).  JSON numbers are modelled as rationals.  express-validator
    stringifies a field value before handing it to a validator.js
    predicate (numbers render in decimal, switching to exponent notation
    below 1e-6 and at or above 1e21; booleans render as "true"/"false";
    null as the empty string), and the numeric and URL rules below model
    the predicates on the stringified value: numeric strings are parsed
    by the float and integer grammars of validator.js, and the URL rule
    is the isURL pipeline with the three options of index.js switched
    off.  Two float corners are out of scope: the underflow of literals
    whose exponent is below the smallest denormal (parseFloat then
    yields a signed zero) and rendering artifacts of magnitudes above
    1e21 in the float rule.
  - Machine floating point does not occur: the service only compares the
    `price` and `stock` numbers against 0 and stores them verbatim.
  - A promise chain becomes an `Except` value.  A *synchronous* throw
    inside a gateway method (the `new ObjectId(id)` constructor) is kept
    distinct from a rejection produced inside the chain, because the
    router attaches `.then/.catch` only to the returned promise: a
    synchronous throw escapes both branches and the handler sends no
    response.  A handler outcome is therefore `Option HResp`, `none`
    meaning the handler finished without sending anything.
  - The document store is a list of documents plus a counter from which
    fresh object ids are generated; driver results (`InsertOneResult`,
    `ReplaceOneResult`, `FindDeleteResult`) are separate record types so
    that store-level failure (unacknowledged write, `ok: false`) can be
    discussed on the gateway continuations.
-/

namespace ProductService

/-! ### Object ids (`mongodb.ObjectId`) -/

/-- Hexadecimal digit test, both cases, as accepted by the `ObjectId`
constructor. -/
def isHexChar (c : Char) : Bool :=
  (('0' ≤ c) && (c ≤ '9')) || (('a' ≤ c) && (c ≤ 'f')) || (('A' ≤ c) && (c ≤ 'F'))

/-- A string is a syntactically valid store identifier when it is a
24-character hexadecimal string; on any other string the `ObjectId`
constructor throws a `BSONError`. -/
def isValidObjectIdString (s : String) : Bool :=
  (s.length == 24) && s.data.all isHexChar

/-- The store-native identifier: the 24-character hexadecimal form. -/
structure ObjectId where
  hex : String
deriving DecidableEq, Repr

/-- `new ObjectId(s)`: `some` on a syntactically valid identifier string,
`none` when the constructor throws. -/
def ObjectId.parse (s : String) : Option ObjectId :=
  if isValidObjectIdString s then some ⟨s⟩ else none

/-- Hex digit character for a value below 16. -/
def hexDigitChar (n : Nat) : Char :=
  if n < 10 then Char.ofNat (48 + n) else Char.ofNat (97 + (n - 10))

/-- Fixed-width big-endian hex rendering (fuel = number of digits). -/
def hexChars : Nat → Nat → List Char
  | 0, _ => []
  | fuel + 1, n => hexChars fuel (n / 16) ++ [hexDigitChar (n % 16)]

/-- Store-side generation of a fresh object id from the id counter. -/
def genId (n : Nat) : ObjectId :=
  ⟨String.mk (hexChars 24 n)⟩

/-! ### JSON values and documents -/

/-- A JSON value as it appears in a parsed request body or a stored
document.  `joid` is the store-native identifier value that the driver
writes into the `_id` field. -/
inductive JValue where
  | jstr (s : String)
  | jnum (q : ℚ)
  | jbool (b : Bool)
  | jnull
  | joid (i : ObjectId)
deriving DecidableEq, Repr

/-- A document / parsed JSON body: field names with their values. -/
abbrev Doc := List (String × JValue)

/-- JS property read `d[k]`: first binding of the key wins. -/
def getField : Doc → String → Option JValue
  | [], _ => none
  | (k2, v) :: rest, k => if k2 = k then some v else getField rest k

/-- JS property write `d[k] = v`: replaces the binding in place when the
key is present, otherwise appends it. -/
def setField : Doc → String → JValue → Doc
  | [], k, v => [(k, v)]
  | (k2, v2) :: rest, k, v =>
      if k2 = k then (k, v) :: rest else (k2, v2) :: setField rest k v

/-- The field names of a document, in order. -/
def keys (d : Doc) : List String := d.map Prod.fst

/-- JS truthiness of a resolved document value: a parsed JSON body is an
object, and an object is always truthy (only `null`, `undefined`,
`false`, `0`, `NaN` and the empty string are falsy). -/
def docTruthy (_d : Doc) : Bool := true

/-! ### The document store and driver call results -/

/-- The `products` collection plus the counter from which fresh object
ids are generated. -/
structure Store where
  docs : List Doc
  nextId : Nat
deriving DecidableEq, Repr

/-- `collection.findOne({ _id })`: first stored document whose `_id`
field holds the given identifier. -/
def Store.findOne (s : Store) (i : ObjectId) : Option Doc :=
  s.docs.find? (fun d => getField d "_id" == some (.joid i))

/-- Driver result of `collection.insertOne`. -/
structure InsertOneResult where
  acknowledged : Bool
  insertedId : ObjectId
deriving DecidableEq, Repr

/-- Driver result of `collection.replaceOne`. -/
structure ReplaceOneResult where
  matchedCount : Nat
  modifiedCount : Nat
deriving DecidableEq, Repr

/-- Driver result of `collection.findOneAndDelete`. -/
structure FindDeleteResult where
  ok : Bool
  value : Option Doc
deriving DecidableEq, Repr

/-- `collection.insertOne(d)` on a healthy store: the driver uses the
`_id` already present in the document if there is one, otherwise a
freshly generated id; the document is stored with that `_id` and the
write is acknowledged. -/
def Store.insertOne (s : Store) (d : Doc) : InsertOneResult × Store :=
  let i := match getField d "_id" with
    | some (.joid j) => j
    | _ => genId s.nextId
  let stored := setField d "_id" (.joid i)
  (⟨true, i⟩, ⟨s.docs ++ [stored], s.nextId + 1⟩)

/-- `collection.replaceOne({ _id }, d)` on a healthy store: if a document
matches, the whole document is overwritten (keeping the matched `_id`)
and the result reports `matchedCount` 1 and `modifiedCount` 1 exactly
when the representation changed; with no match nothing is written and
both counts are 0. -/
def Store.replaceOne (s : Store) (i : ObjectId) (d : Doc) : ReplaceOneResult × Store :=
  match s.findOne i with
  | none => (⟨0, 0⟩, s)
  | some old =>
      let stored := setField d "_id" (.joid i)
      let docs := s.docs.map
        (fun doc => if getField doc "_id" == some (.joid i) then stored else doc)
      (⟨1, if stored = old then 0 else 1⟩, ⟨docs, s.nextId⟩)

/-- `collection.findOneAndDelete({ _id })` on a healthy store: removes
and returns the matching document; a missing document is a normal
outcome (`ok` with a `null` value), not a failure. -/
def Store.findOneAndDelete (s : Store) (i : ObjectId) : FindDeleteResult × Store :=
  match s.findOne i with
  | none => (⟨true, none⟩, s)
  | some d =>
      (⟨true, some d⟩,
        ⟨s.docs.eraseP (fun doc => getField doc "_id" == some (.joid i)), s.nextId⟩)

/-! ### The persistence gateway (`src/backend/db.js`, class `DB`)

Each promise chain is split into the driver call and the pure
continuation of its `.then` branch, so that the continuation can also be
applied to a failing driver result. -/

/-- A failure coming out of a gateway method.  `invalidId` is the
`BSONError` thrown *synchronously* by `new ObjectId(id)` before any
promise exists; `opError` is a rejection produced inside the promise
chain, carrying the message of the thrown `Error`. -/
inductive GatewayError where
  | invalidId
  | opError (msg : String)
deriving DecidableEq, Repr

namespace DB

/-- `DB.queryById(id)`: parses the id (synchronous throw on a malformed
one) and resolves with the matching document or `null`. -/
def queryById (id : String) (s : Store) : Except GatewayError (Option Doc) :=
  match ObjectId.parse id with
  | none => .error .invalidId
  | some i => .ok (s.findOne i)

/-- Continuation of `DB.insert`: on an acknowledged write the method
sets `product._id = result.insertedId` and resolves with the product;
otherwise it throws. -/
def insertThen (product : Doc) (result : InsertOneResult) : Except GatewayError Doc :=
  if result.acknowledged then
    .ok (setField product "_id" (.joid result.insertedId))
  else
    .error (.opError "Error inserting product")

/-- `DB.insert(product)` on a healthy store. -/
def insert (product : Doc) (s : Store) : Except GatewayError Doc × Store :=
  let (result, s2) := s.insertOne product
  (insertThen product result, s2)

/-- The `_id` coercion at the head of `DB.update`: when
`typeof product._id === "string"` the field is overwritten with the
parsed path id. -/
def updateCoerce (i : ObjectId) (product : Doc) : Doc :=
  match getField product "_id" with
  | some (.jstr _) => setField product "_id" (.joid i)
  | _ => product

/-- Continuation of `DB.update`: resolves with the product when
`result.modifiedCount === 1 || result.matchedCount === 1`, otherwise
throws; the trailing `.catch` only logs and rethrows. -/
def updateThen (product : Doc) (result : ReplaceOneResult) : Except GatewayError Doc :=
  if result.modifiedCount == 1 || result.matchedCount == 1 then
    .ok product
  else
    .error (.opError "Error updating product")

/-- `DB.update(id, product)` on a healthy store: parses the id
(synchronous throw on a malformed one), applies the `_id` coercion,
replaces the matched document and runs the count check. -/
def update (id : String) (product : Doc) (s : Store) : Except GatewayError Doc × Store :=
  match ObjectId.parse id with
  | none => (.error .invalidId, s)
  | some i =>
      let product2 := updateCoerce i product
      let (result, s2) := s.replaceOne i product2
      (updateThen product2 result, s2)

/-- Continuation of `DB.delete`: resolves with `result.value` (the
removed document, or `null` when none matched) when `result.ok` holds,
otherwise throws. -/
def deleteThen (result : FindDeleteResult) : Except GatewayError (Option Doc) :=
  if result.ok then .ok result.value
  else .error (.opError "Error deleting product")

/-- `DB.delete(id)` on a healthy store: parses the id (synchronous throw
on a malformed one) and runs `findOneAndDelete`. -/
def delete (id : String) (s : Store) : Except GatewayError (Option Doc) × Store :=
  match ObjectId.parse id with
  | none => (.error .invalidId, s)
  | some i =>
      let (result, s2) := s.findOneAndDelete i
      (deleteThen result, s2)

end DB

/-! ### Validation (`express-validator` rules) -/

/-- One entry of `validationResult(req).array()`: the failing field and
the message attached with `withMessage`.  For the `checkExact` rule the
path is empty (its real error lists the unknown fields; only the message
is relied upon here). -/
structure ValidationError where
  path : String
  msg : String
deriving DecidableEq, Repr

/-- `check(field).isString()`: fails when the field is missing or not a
string. -/
def errString (body : Doc) (field msg : String) : List ValidationError :=
  match getField body field with
  | some (.jstr _) => []
  | _ => [⟨field, msg⟩]

/-- Optional leading sign of a numeric string: whether it is a minus,
and the remainder. -/
def splitSign : List Char → Bool × List Char
  | '-' :: rest => (true, rest)
  | '+' :: rest => (false, rest)
  | l => (false, l)

/-- Value of a decimal digit string. -/
def digitsVal (ds : List Char) : Nat :=
  ds.foldl (fun a c => a * 10 + (c.toNat - 48)) 0

/-- The exponent tail of the validator.js float grammar, after the `e`:
an optional sign followed by at least one digit, to the end. -/
def expDigits (l : List Char) : Option (List Char) :=
  let (_, r) := splitSign l
  if 0 < r.length && r.all Char.isDigit then some r else none

/-- Decomposition of a string by the validator.js float grammar
(optional sign, optional integer digits, optional point with digits,
optional exponent): minus flag, integer digits, fraction digits,
exponent digits; `none` when the grammar does not match. -/
def floatParts (l : List Char) : Option (Bool × List Char × List Char × List Char) :=
  let (neg, r0) := splitSign l
  let int := r0.takeWhile Char.isDigit
  let r1 := r0.dropWhile Char.isDigit
  match r1 with
  | [] => some (neg, int, [], [])
  | '.' :: r2 =>
      let frac := r2.takeWhile Char.isDigit
      let r3 := r2.dropWhile Char.isDigit
      (match r3 with
       | [] => some (neg, int, frac, [])
       | e :: r4 =>
           if e = 'e' || e = 'E' then
             (expDigits r4).map (fun ds => (neg, int, frac, ds))
           else none)
  | e :: r4 =>
      if e = 'e' || e = 'E' then
        (expDigits r4).map (fun ds => (neg, int, [], ds))
      else none

/-- validator.js `isFloat` with `min: 0` on a string: the float grammar
must match with at least one mantissa digit (otherwise `parseFloat`
gives NaN, failing the min check), and the value is at least 0 exactly
when the sign is not minus or the mantissa is zero. -/
def isFloatStrMin0 (s : String) : Bool :=
  match floatParts s.data with
  | none => false
  | some (neg, int, frac, _) =>
      (0 < int.length + frac.length) &&
      (!neg || (digitsVal int == 0 && digitsVal frac == 0))

/-- validator.js `isInt` with `min: 0` on a string: an optional sign
followed by at least one digit (leading zeroes are allowed by default),
with a value of at least 0. -/
def isIntStrMin0 (s : String) : Bool :=
  let (neg, r) := splitSign s.data
  (0 < r.length) && r.all Char.isDigit && (!neg || digitsVal r == 0)

/-- `check(field).isFloat({ min: 0.00 })`: express-validator stringifies
the value; a number is accepted exactly when it is at least 0 (every
rendering matches the float grammar and keeps the sign), a string goes
through the float grammar, and the renderings of booleans, null and a
missing value all fail it.  A stored identifier value renders as its hex
string. -/
def errFloatMin0 (body : Doc) (field msg : String) : List ValidationError :=
  match getField body field with
  | some (.jnum q) => if 0 ≤ q then [] else [⟨field, msg⟩]
  | some (.jstr s) => if isFloatStrMin0 s then [] else [⟨field, msg⟩]
  | some (.joid i) => if isFloatStrMin0 i.hex then [] else [⟨field, msg⟩]
  | _ => [⟨field, msg⟩]

/-- `check(field).isInt({ min: 0 })`: a number is accepted exactly when
it is integral, below 1e21 (at and above which its rendering switches to
exponent notation, which the integer grammar rejects) and at least 0; a
string goes through the integer grammar; the renderings of booleans,
null and a missing value fail it.  A stored identifier value renders as
its hex string. -/
def errIntMin0 (body : Doc) (field msg : String) : List ValidationError :=
  match getField body field with
  | some (.jnum q) =>
      if q.den == 1 && q.num.natAbs < 1000000000000000000000 && decide (0 ≤ q) then []
      else [⟨field, msg⟩]
  | some (.jstr s) => if isIntStrMin0 s then [] else [⟨field, msg⟩]
  | some (.joid i) => if isIntStrMin0 i.hex then [] else [⟨field, msg⟩]
  | _ => [⟨field, msg⟩]

/-- The characters of the JavaScript whitespace class, as tested by the
leading `[\s<>]` rejection of isURL. -/
def isJsWhitespace (c : Char) : Bool :=
  c = ' ' || c = '\t' || c = '\n' || c = '\r' ||
  c.val == 11 || c.val == 12 ||
  c.val == 0xa0 || c.val == 0x1680 ||
  (0x2000 ≤ c.val && c.val ≤ 0x200a) ||
  c.val == 0x2028 || c.val == 0x2029 || c.val == 0x202f || c.val == 0x205f ||
  c.val == 0x3000 || c.val == 0xfeff

/-- Split of a character list at every occurrence of a separator
(JavaScript `String.split` on a one-character separator). -/
def splitChar (sep : Char) : List Char → List (List Char)
  | [] => [[]]
  | c :: rest =>
      if c = sep then [] :: splitChar sep rest
      else
        match splitChar sep rest with
        | [] => [[c]]
        | h :: t => (c :: h) :: t

/-- Rejoin with a separator (JavaScript `Array.join`). -/
def joinChar (sep : Char) : List (List Char) → List Char
  | [] => []
  | [x] => x
  | x :: xs => x ++ sep :: joinChar sep xs

/-- The part before the first occurrence of a character. -/
def beforeChar (sep : Char) (l : List Char) : List Char :=
  l.takeWhile (fun c => c ≠ sep)

/-- The part after the first occurrence of a character, when there is
one (the rejoined tail of the JavaScript split). -/
def afterFirstChar (sep : Char) : List Char → Option (List Char)
  | [] => none
  | c :: rest => if c = sep then some rest else afterFirstChar sep rest

/-- Split at the first occurrence of the protocol separator "://":
the protocol part and the remainder (rejoining the tail of the
JavaScript split on "://" restores everything after the first
occurrence). -/
def splitProtocol : List Char → Option (List Char × List Char)
  | ':' :: '/' :: '/' :: rest => some ([], rest)
  | c :: rest =>
      (match splitProtocol rest with
       | some (pre, post) => some (c :: pre, post)
       | none => none)
  | [] => none

/-- One dotted-quad component of validator.js `isIP` version 4: one to
three digits with a value up to 255. -/
def isIPv4Part (p : List Char) : Bool :=
  (0 < p.length) && (p.length ≤ 3) && p.all Char.isDigit && digitsVal p ≤ 255

/-- validator.js `isIP` restricted to version 4 (a host split on colons
can never spell an IPv6 address). -/
def isIPv4 (l : List Char) : Bool :=
  match splitChar '.' l with
  | [a, b, c, d] => isIPv4Part a && isIPv4Part b && isIPv4Part c && isIPv4Part d
  | _ => false

/-- Characters admitted in a hostname label by validator.js `isFQDN`
with underscores disallowed (the default): ASCII letters and digits,
the hyphen, and the non-full-width characters above U+00A0. -/
def isFQDNChar (c : Char) : Bool :=
  c.isAlpha || c.isDigit || c = '-' ||
  (0xa1 ≤ c.val && c.val ≤ 0xffff && !(0xff01 ≤ c.val && c.val ≤ 0xff5e))

/-- One label of validator.js `isFQDN`: nonempty, at most 63
characters, admitted characters only, not starting or ending with a
hyphen. -/
def isFQDNPart (p : List Char) : Bool :=
  (0 < p.length) && (p.length ≤ 63) && p.all isFQDNChar &&
  !(p.head? == some '-') && !(p.getLast? == some '-')

/-- validator.js `isFQDN` with `require_tld: false` and the remaining
options at their defaults: the final label may not be digits-only, and
every dot-separated label must be valid. -/
def isFQDN (l : List Char) : Bool :=
  let parts := splitChar '.' l
  (match parts.getLast? with
   | some t => !(0 < t.length && t.all Char.isDigit)
   | none => true) &&
  parts.all isFQDNPart

/-- The port check of isURL: digits only, parsed value in 1..65535. -/
def isValidPortStr (p : List Char) : Bool :=
  (0 < p.length) && p.all Char.isDigit && 0 < digitsVal p && digitsVal p ≤ 65535

/-- The bracketed-IPv6 hostname pattern of isURL: an opening bracket, a
nonempty bracket-free inside, a closing bracket, and optionally a colon
with digits to the end; yields the optional port digits.  With
`require_host: false` a match empties the host, so the inside is never
validated further. -/
def matchWrappedIPv6 (l : List Char) : Option (Option (List Char)) :=
  match l with
  | '[' :: rest =>
      let inner := rest.takeWhile (fun c => c ≠ ']')
      (match rest.dropWhile (fun c => c ≠ ']') with
       | ']' :: tail =>
           if inner.length == 0 then none
           else
             (match tail with
              | [] => some none
              | ':' :: ds =>
                  if 0 < ds.length && ds.all Char.isDigit then some (some ds) else none
              | _ => none)
       | _ => none)
  | _ => none

/-- The credential segment handling of isURL: with an `@` present, the
part before the first `@` may not be empty, may hold at most one colon,
and user and password may not both be empty; returns the hostname after
the first `@` (or the whole input without one), or `none` on invalid
credentials. -/
def checkAuth (hostPart : List Char) : Option (List Char) :=
  match splitChar '@' hostPart with
  | [] => some hostPart
  | [_] => some hostPart
  | first :: rest =>
      if first.isEmpty then none
      else
        (match splitChar ':' first with
         | [user, password] =>
             if user.isEmpty && password.isEmpty then none
             else some (joinChar '@' rest)
         | parts =>
             if 2 < parts.length then none else some (joinChar '@' rest))

/-- The hostname and port handling of isURL with `require_host: false`:
a bracketed address empties the host (accepted once the port is in
range); otherwise the part before the first colon is the host and the
rest the port; an empty host is accepted, any other must be a
dotted-quad address or a valid FQDN. -/
def checkHostname (hostname : List Char) : Bool :=
  match matchWrappedIPv6 hostname with
  | some portOpt =>
      (match portOpt with
       | some p => isValidPortStr p
       | none => true)
  | none =>
      let host := beforeChar ':' hostname
      (match afterFirstChar ':' hostname with
       | some p => if 0 < p.length then isValidPortStr p else true
       | none => true) &&
      (host.isEmpty || isIPv4 host || isFQDN host)

/-- validator.js `isURL` with
`{require_valid_protocol: false, require_tld: false, require_host: false}`
and every other option at its default: rejects empty strings,
whitespace and angle brackets, a `mailto:` prefix and overlong inputs;
strips fragment and query; accepts any protocol before "://" but
rejects protocol-relative input; then validates credentials, host and
port of the authority component. -/
def isURLPermissive (u : String) : Bool :=
  let l := u.data
  if l.isEmpty then false
  else if l.any (fun c => isJsWhitespace c || c = '<' || c = '>') then false
  else if l.take 7 == "mailto:".data then false
  else if 2083 ≤ l.length then false
  else
    let l2 := beforeChar '?' (beforeChar '#' l)
    let afterProto : Option (List Char) :=
      match splitProtocol l2 with
      | some (_, rest) => some rest
      | none =>
          match l2 with
          | '/' :: '/' :: _ => none
          | _ => some l2
    match afterProto with
    | none => false
    | some url =>
        if url.isEmpty then false
        else
          let hostPart := beforeChar '/' url
          if hostPart.isEmpty then true
          else
            (match checkAuth hostPart with
             | none => false
             | some hostname => checkHostname hostname)

/-- `check(field).isURL(...)` with the permissive options, on the
stringified value: a string goes through the isURL pipeline; a number
renders as a hostname-shaped string exactly when it is positive and
prints in the negative-exponent form used below 1e-6 (such as "1e-7" or
"1.5e-7"; every other rendering has a leading minus, contains a plus,
or ends in a digits-only label, all rejected); booleans render as
"true"/"false", single labels that isURL accepts; null renders empty
and fails; a stored identifier value renders as its hex string. -/
def errURL (body : Doc) (field msg : String) : List ValidationError :=
  match getField body field with
  | some (.jstr u) => if isURLPermissive u then [] else [⟨field, msg⟩]
  | some (.jnum q) => if 0 < q ∧ q < mkRat 1 1000000 then [] else [⟨field, msg⟩]
  | some (.jbool _) => []
  | some (.joid i) => if isURLPermissive i.hex then [] else [⟨field, msg⟩]
  | _ => [⟨field, msg⟩]

/-- `checkExact([], {locations: ["body"], message: ...})`: every body
field must be known from the chains that ran before; an unknown field
produces one error with the configured message. -/
def errExactWith (known : List String) (body : Doc) : List ValidationError :=
  if body.all (fun kv => known.contains kv.1) then []
  else [⟨"", "No additional fields allowed"⟩]

/-- The fields made known to `checkExact` by the five chains of
`productValidationRules` in `src/backend/index.js`. -/
def knownFields : List String :=
  ["name", "description", "price", "stock", "image_url"]

/-- `productValidationRules` of `src/backend/index.js`: every chain
runs and contributes its failures, in order, to
`validationResult(req).array()`. -/
def productValidationRules (body : Doc) : List ValidationError :=
  errString body "name" "Name must be a string"
  ++ errString body "description" "Description must be a string"
  ++ errFloatMin0 body "price" "Price must be a positive float"
  ++ errIntMin0 body "stock" "Stock must be a positive integer"
  ++ errURL body "image_url" "URL must be a valid URL"
  ++ errExactWith knownFields body

namespace Variant

/-- The fields known to `checkExact` in `src/unnamed/part_000`, where
the URL chain is commented out: `image_url` is no longer known. -/
def knownFields : List String :=
  ["name", "description", "price", "stock"]

/-- `productValidationRules` of `src/unnamed/part_000`: the same rules
with the URL chain disabled. -/
def productValidationRules (body : Doc) : List ValidationError :=
  errString body "name" "Name must be a string"
  ++ errString body "description" "Description must be a string"
  ++ errFloatMin0 body "price" "Price must be a positive float"
  ++ errIntMin0 body "stock" "Stock must be a positive integer"
  ++ errExactWith Variant.knownFields body

end Variant

/-! ### The HTTP router (`src/backend/index.js` and `src/unnamed/part_000`)

A handler outcome is `Option HResp`: `none` when a synchronous throw
escaped the `.then/.catch` chain and the handler sent no response. -/

/-- A response body: plain text, a JSON document, a JSON array of
documents, or the JSON array of validation errors. -/
inductive RespBody where
  | text (s : String)
  | jsonDoc (d : Doc)
  | jsonDocs (ds : List Doc)
  | jsonErrors (es : List ValidationError)
deriving DecidableEq, Repr

/-- An HTTP response: status code and body. -/
structure HResp where
  status : Nat
  body : RespBody
deriving DecidableEq, Repr

/-- `GET /products`: resolves the full collection with status 200. -/
def routeGetProducts (s : Store) : HResp :=
  ⟨200, .jsonDocs s.docs⟩

/-- `GET /products/:id`: a truthy resolution is sent with 200, a falsy
one as 404 "Product not found", a rejection as 500
"Error querying product"; the synchronous `ObjectId` throw escapes the
chain and nothing is sent. -/
def routeGetProductById (id : String) (s : Store) : Option HResp :=
  match DB.queryById id s with
  | .error .invalidId => none
  | .error (.opError _) => some ⟨500, .text "Error querying product"⟩
  | .ok (some product) => some ⟨200, .jsonDoc product⟩
  | .ok none => some ⟨404, .text "Product not found"⟩

/-- `POST /products` with a given rule set: a non-empty validation
result is answered 400 with the error array before any gateway call; an
insert resolution is sent with 201; a rejection with 500. -/
def routePostWith (rules : Doc → List ValidationError) (body : Doc) (s : Store) :
    Option HResp × Store :=
  let errs := rules body
  if !errs.isEmpty then
    (some ⟨400, .jsonErrors errs⟩, s)
  else
    let (r, s2) := DB.insert body s
    match r with
    | .ok product => (some ⟨201, .jsonDoc product⟩, s2)
    | .error _ => (some ⟨500, .text "Error inserting product"⟩, s2)

/-- `PUT /products/:id` with a given rule set: a non-empty validation
result is answered 400 before any gateway call; an update resolution is
sent with 200 when truthy and 404 otherwise; a rejection with 500; the
synchronous `ObjectId` throw escapes the chain and nothing is sent. -/
def routePutWith (rules : Doc → List ValidationError) (id : String) (body : Doc)
    (s : Store) : Option HResp × Store :=
  let errs := rules body
  if !errs.isEmpty then
    (some ⟨400, .jsonErrors errs⟩, s)
  else
    let (r, s2) := DB.update id body s
    match r with
    | .ok product =>
        (some (if docTruthy product then ⟨200, .jsonDoc product⟩
               else ⟨404, .text "Product not found"⟩), s2)
    | .error .invalidId => (none, s2)
    | .error (.opError _) => (some ⟨500, .text "Error updating product"⟩, s2)

/-- `DELETE /products/:id`: a truthy resolution (the removed document)
is sent with 200, a `null` resolution as 404, a rejection as 500; the
synchronous `ObjectId` throw escapes the chain and nothing is sent. -/
def routeDeleteProduct (id : String) (s : Store) : Option HResp × Store :=
  let (r, s2) := DB.delete id s
  match r with
  | .ok (some product) => (some ⟨200, .jsonDoc product⟩, s2)
  | .ok none => (some ⟨404, .text "Product not found"⟩, s2)
  | .error .invalidId => (none, s2)
  | .error (.opError _) => (some ⟨500, .text "Error deleting product"⟩, s2)

/-- `POST /products` of `src/backend/index.js`. -/
def routePostProduct (body : Doc) (s : Store) : Option HResp × Store :=
  routePostWith productValidationRules body s

/-- `PUT /products/:id` of `src/backend/index.js`. -/
def routePutProduct (id : String) (body : Doc) (s : Store) : Option HResp × Store :=
  routePutWith productValidationRules id body s

/-- `POST /products` of `src/unnamed/part_000`. -/
def routePostProductVariant (body : Doc) (s : Store) : Option HResp × Store :=
  routePostWith Variant.productValidationRules body s

/-- `PUT /products/:id` of `src/unnamed/part_000`. -/
def routePutProductVariant (id : String) (body : Doc) (s : Store) : Option HResp × Store :=
  routePutWith Variant.productValidationRules id body s

/-! ### Helper lemmas on documents, identifiers and the store -/

theorem getField_setField_same (d : Doc) (k : String) (v : JValue) :
    getField (setField d k v) k = some v := by
  induction d with
  | nil => simp [setField, getField]
  | cons kv rest ih =>
      by_cases h : kv.1 = k
      · simp [setField, getField, h]
      · simp [setField, getField, h, ih]

theorem getField_setField_ne (d : Doc) (k k2 : String) (v : JValue) (h : k2 ≠ k) :
    getField (setField d k v) k2 = getField d k2 := by
  have hne : k ≠ k2 := fun hh => h hh.symm
  induction d with
  | nil => simp [setField, getField, hne]
  | cons kv rest ih =>
      by_cases hk : kv.1 = k
      · simp [setField, getField, hk, hne]
      · by_cases hk2 : kv.1 = k2
        · simp [setField, getField, hk, hk2, h]
        · simp [setField, getField, hk, hk2, ih]

theorem keys_setField (d : Doc) (k : String) (v : JValue) :
    keys (setField d k v) = keys d ∨ keys (setField d k v) = keys d ++ [k] := by
  induction d with
  | nil => right; simp [setField, keys]
  | cons kv rest ih =>
      by_cases h : kv.1 = k
      · left; simp [setField, keys, h]
      · rcases ih with ih | ih
        · left; simp [setField, keys, h]; simpa [keys] using ih
        · right; simp [setField, keys, h]; simpa [keys] using ih

theorem getField_eq_none (d : Doc) (k : String) (h : ∀ kv ∈ d, kv.1 ≠ k) :
    getField d k = none := by
  induction d with
  | nil => rfl
  | cons kv rest ih =>
      have h1 : kv.1 ≠ k := h kv (List.mem_cons_self kv rest)
      simp only [getField, if_neg h1]
      exact ih (fun kv2 hm => h kv2 (List.mem_cons_of_mem kv hm))

theorem exists_key_of_getField_some (d : Doc) (k : String) (v : JValue)
    (h : getField d k = some v) : ∃ kv ∈ d, kv.1 = k := by
  induction d with
  | nil => cases h
  | cons kv rest ih =>
      by_cases hk : kv.1 = k
      · exact ⟨kv, List.mem_cons_self kv rest, hk⟩
      · simp only [getField, if_neg hk] at h
        obtain ⟨kv2, hm, hk2⟩ := ih h
        exact ⟨kv2, List.mem_cons_of_mem kv hm, hk2⟩

theorem hexChars_length (fuel n : Nat) : (hexChars fuel n).length = fuel := by
  induction fuel generalizing n with
  | zero => rfl
  | succ f ih => simp [hexChars, ih]

theorem isHexChar_hexDigitChar : ∀ m, m < 16 → isHexChar (hexDigitChar m) = true := by
  decide

theorem hexChars_all_hex (fuel n : Nat) : (hexChars fuel n).all isHexChar = true := by
  induction fuel generalizing n with
  | zero => rfl
  | succ f ih =>
      simp only [hexChars, List.all_append, ih, List.all_cons, List.all_nil,
        Bool.and_true, Bool.true_and]
      exact isHexChar_hexDigitChar (n % 16) (Nat.mod_lt n (by omega))

theorem isValidObjectIdString_genId (n : Nat) :
    isValidObjectIdString (genId n).hex = true := by
  have h1 : (genId n).hex.length = 24 := by
    show (hexChars 24 n).length = 24
    exact hexChars_length 24 n
  have h2 : (genId n).hex.data.all isHexChar = true := hexChars_all_hex 24 n
  simp [isValidObjectIdString, h1, h2]

theorem parse_genId (n : Nat) : ObjectId.parse (genId n).hex = some (genId n) := by
  simp [ObjectId.parse, isValidObjectIdString_genId]

theorem find?_eq_of_all_neg {α : Type} (p : α → Bool) (l1 l2 : List α)
    (h : ∀ x ∈ l1, p x = false) : (l1 ++ l2).find? p = l2.find? p := by
  rw [List.find?_append]
  have : l1.find? p = none := List.find?_eq_none.mpr (by simpa using h)
  simp [this]

theorem errExactWith_eq_nil (known : List String) (body : Doc)
    (h : errExactWith known body = []) :
    body.all (fun kv => known.contains kv.1) = true := by
  unfold errExactWith at h
  split at h
  next hc => exact hc
  next => cases h

theorem all_known_of_valid (body : Doc) (h : productValidationRules body = []) :
    body.all (fun kv => knownFields.contains kv.1) = true := by
  unfold productValidationRules at h
  obtain ⟨-, h⟩ := List.append_eq_nil.mp h
  exact errExactWith_eq_nil knownFields body h

theorem getField_id_none_of_valid (body : Doc)
    (h : productValidationRules body = []) :
    getField body "_id" = none := by
  have hall := all_known_of_valid body h
  apply getField_eq_none
  intro kv hm
  have hc : kv.1 ∈ knownFields := by simpa using List.all_eq_true.mp hall kv hm
  simp only [knownFields, List.mem_cons, List.not_mem_nil, or_false] at hc
  rcases hc with h1 | h1 | h1 | h1 | h1 <;> simp [h1]

theorem all_contains_eq_false (known : List String) (body : Doc)
    (kv : String × JValue) (hmem : kv ∈ body) (hunk : kv.1 ∉ known) :
    body.all (fun kv2 => known.contains kv2.1) = false := by
  cases hb : body.all (fun kv2 => known.contains kv2.1) with
  | false => rfl
  | true =>
      have hc := List.all_eq_true.mp hb kv hmem
      exact absurd (by simpa using hc) hunk

theorem isEmpty_eq_false_of_mem {l : List ValidationError} {e : ValidationError}
    (h : e ∈ l) : l.isEmpty = false := by
  cases l with
  | nil => cases h
  | cons a l2 => rfl

/-- The concrete payload of the specification scenario (§8): price 16.50
is the rational 33/2, stock is 5. -/
def mrKrabs : Doc :=
  [("name", .jstr "Mr. Krabs"),
   ("description", .jstr "Geiziger Restaurantbesitzer"),
   ("price", .jnum (mkRat 33 2)),
   ("stock", .jnum (mkRat 5 1)),
   ("image_url", .jstr "https://example.com")]

/-- Claim C1, counterexample: at the malformed id "xyz" on the empty
store, the GET handler sends no response at all — the `BSONError` thrown
synchronously by `new ObjectId` in `queryById` escapes the then/catch
chain — so in particular the response is not a 404. -/
theorem getById_malformed_xyz_no_404 :
    routeGetProductById "xyz" ⟨[], 0⟩ = none ∧
    ¬ routeGetProductById "xyz" ⟨[], 0⟩ =
        some ⟨404, .text "Product not found"⟩ := by
  decide

/-- Claim C1, amended: for every id that is not a syntactically valid
store identifier, the GET /products/:id handler sends no response at
all (neither 404 nor 500): the identifier parsing failure in the
gateway's queryById is a synchronous throw that bypasses the router's
then/catch chain. -/
theorem getById_malformed_id_sends_no_response (id : String) (s : Store)
    (h : ObjectId.parse id = none) :
    routeGetProductById id s = none := by
  simp [routeGetProductById, DB.queryById, h]

theorem getById_malformed_id_sends_no_response_witness :
    ObjectId.parse "xyz" = none ∧ routeGetProductById "xyz" ⟨[], 0⟩ = none :=
  ⟨by decide, getById_malformed_id_sends_no_response "xyz" ⟨[], 0⟩ (by decide)⟩

/-- Claim C2 (code bug evaluation): a PUT with the fully valid
specification payload and the syntactically valid but unmatched id
"aaaaaaaaaaaaaaaaaaaaaaaa" on the empty store is answered 500
"Error updating product" — not 404 "Product not found" as the route's
own documentation promises — because `DB.update` surfaces the
zero-match replace result as a thrown error rather than a falsy
resolution. -/
theorem put_unmatched_id_gives_500 :
    isValidObjectIdString "aaaaaaaaaaaaaaaaaaaaaaaa" = true ∧
    productValidationRules mrKrabs = [] ∧
    routePutProduct "aaaaaaaaaaaaaaaaaaaaaaaa" mrKrabs ⟨[], 0⟩ =
      (some ⟨500, .text "Error updating product"⟩, ⟨[], 0⟩) := by
  decide

/-- Claim C3: for every body passing validation and every store whose
documents do not already carry the next generated id, POST stores the
body with the fresh id appended and answers 201, a GET on the returned
id answers 200 with that same stored document, and the stored document
agrees with the body on every field other than the assigned `_id`. -/
theorem post_then_get_returns_equal_product (body : Doc) (s : Store) (k : String)
    (hval : productValidationRules body = [])
    (hfresh : ∀ d ∈ s.docs, getField d "_id" ≠ some (.joid (genId s.nextId)))
    (hk : k ≠ "_id") :
    routePostProduct body s =
      (some ⟨201, .jsonDoc (setField body "_id" (.joid (genId s.nextId)))⟩,
        ⟨s.docs ++ [setField body "_id" (.joid (genId s.nextId))], s.nextId + 1⟩) ∧
    routeGetProductById (genId s.nextId).hex
        ⟨s.docs ++ [setField body "_id" (.joid (genId s.nextId))], s.nextId + 1⟩ =
      some ⟨200, .jsonDoc (setField body "_id" (.joid (genId s.nextId)))⟩ ∧
    getField (setField body "_id" (.joid (genId s.nextId))) "_id" =
      some (.joid (genId s.nextId)) ∧
    getField (setField body "_id" (.joid (genId s.nextId))) k = getField body k := by
  have hid0 : getField body "_id" = none := getField_id_none_of_valid body hval
  refine ⟨?_, ?_, getField_setField_same body "_id" _,
    getField_setField_ne body "_id" k _ hk⟩
  · simp [routePostProduct, routePostWith, hval, DB.insert, Store.insertOne, hid0,
      DB.insertThen]
  · have hfind :
        Store.findOne
          ⟨s.docs ++ [setField body "_id" (.joid (genId s.nextId))], s.nextId + 1⟩
          (genId s.nextId)
          = some (setField body "_id" (.joid (genId s.nextId))) := by
      unfold Store.findOne
      rw [find?_eq_of_all_neg]
      · simp [List.find?, getField_setField_same]
      · intro d hd
        simpa using hfresh d hd
    simp [routeGetProductById, DB.queryById, parse_genId, hfind]

theorem post_then_get_returns_equal_product_witness :
    productValidationRules mrKrabs = [] ∧
    (∀ d ∈ ([] : List Doc), getField d "_id" ≠ some (.joid (genId 0))) ∧
    ("name" : String) ≠ "_id" ∧
    (routePostProduct mrKrabs ⟨[], 0⟩ =
      (some ⟨201, .jsonDoc (setField mrKrabs "_id" (.joid (genId 0)))⟩,
        ⟨[] ++ [setField mrKrabs "_id" (.joid (genId 0))], 0 + 1⟩) ∧
     routeGetProductById (genId 0).hex
        ⟨[] ++ [setField mrKrabs "_id" (.joid (genId 0))], 0 + 1⟩ =
      some ⟨200, .jsonDoc (setField mrKrabs "_id" (.joid (genId 0)))⟩ ∧
     getField (setField mrKrabs "_id" (.joid (genId 0))) "_id" =
      some (.joid (genId 0)) ∧
     getField (setField mrKrabs "_id" (.joid (genId 0))) "name" =
      getField mrKrabs "name") :=
  ⟨by decide, by simp, by decide,
    post_then_get_returns_equal_product mrKrabs ⟨[], 0⟩ "name" (by decide) (by simp)
      (by decide)⟩

/-- Claim C4: a body containing a field outside the five recognized
ones makes the checkExact rule emit the "No additional fields allowed"
error, and both POST and PUT answer 400 with the collected errors,
leaving the store unchanged, regardless of the other fields. -/
theorem extra_field_always_400 (id : String) (body : Doc) (kv : String × JValue)
    (s : Store) (hmem : kv ∈ body) (hunk : kv.1 ∉ knownFields) :
    (⟨"", "No additional fields allowed"⟩ : ValidationError) ∈
      productValidationRules body ∧
    routePostProduct body s =
      (some ⟨400, .jsonErrors (productValidationRules body)⟩, s) ∧
    routePutProduct id body s =
      (some ⟨400, .jsonErrors (productValidationRules body)⟩, s) := by
  have hall := all_contains_eq_false knownFields body kv hmem hunk
  have hex : errExactWith knownFields body =
      [⟨"", "No additional fields allowed"⟩] := by
    unfold errExactWith
    rw [hall]
    simp
  have hmem2 : (⟨"", "No additional fields allowed"⟩ : ValidationError) ∈
      productValidationRules body := by
    unfold productValidationRules
    rw [hex]
    exact List.mem_append_right _ (List.mem_cons_self _ _)
  have hie : (productValidationRules body).isEmpty = false :=
    isEmpty_eq_false_of_mem hmem2
  exact ⟨hmem2,
    by simp [routePostProduct, routePostWith, hie],
    by simp [routePutProduct, routePutWith, hie]⟩

theorem extra_field_always_400_witness :
    (("foo", JValue.jstr "bar") ∈
      mrKrabs ++ [(("foo" : String), JValue.jstr "bar")]) ∧
    (("foo", JValue.jstr "bar") : String × JValue).1 ∉ knownFields ∧
    ((⟨"", "No additional fields allowed"⟩ : ValidationError) ∈
      productValidationRules (mrKrabs ++ [("foo", JValue.jstr "bar")]) ∧
     routePostProduct (mrKrabs ++ [("foo", JValue.jstr "bar")]) ⟨[], 0⟩ =
      (some ⟨400, .jsonErrors
        (productValidationRules (mrKrabs ++ [("foo", JValue.jstr "bar")]))⟩, ⟨[], 0⟩) ∧
     routePutProduct "aaaaaaaaaaaaaaaaaaaaaaaa"
        (mrKrabs ++ [("foo", JValue.jstr "bar")]) ⟨[], 0⟩ =
      (some ⟨400, .jsonErrors
        (productValidationRules (mrKrabs ++ [("foo", JValue.jstr "bar")]))⟩, ⟨[], 0⟩)) :=
  ⟨by decide, by decide,
    extra_field_always_400 "aaaaaaaaaaaaaaaaaaaaaaaa"
      (mrKrabs ++ [("foo", JValue.jstr "bar")]) ("foo", JValue.jstr "bar") ⟨[], 0⟩
      (by decide) (by decide)⟩

/-- Claim C5: price 0 together with stock 0 passes every validation
rule; price minus 1/100 fails validation and both write routes answer
400; stock minus 1 likewise. -/
theorem zero_boundary_validation :
    productValidationRules
      [("name", .jstr "a"), ("description", .jstr "b"),
       ("price", .jnum (mkRat 0 1)), ("stock", .jnum (mkRat 0 1)),
       ("image_url", .jstr "https://example.com")] = [] ∧
    productValidationRules
      [("name", .jstr "a"), ("description", .jstr "b"),
       ("price", .jnum (mkRat (-1) 100)), ("stock", .jnum (mkRat 0 1)),
       ("image_url", .jstr "https://example.com")] =
      [⟨"price", "Price must be a positive float"⟩] ∧
    (routePostProduct
      [("name", .jstr "a"), ("description", .jstr "b"),
       ("price", .jnum (mkRat (-1) 100)), ("stock", .jnum (mkRat 0 1)),
       ("image_url", .jstr "https://example.com")] ⟨[], 0⟩).1 =
      some ⟨400, .jsonErrors [⟨"price", "Price must be a positive float"⟩]⟩ ∧
    (routePutProduct "aaaaaaaaaaaaaaaaaaaaaaaa"
      [("name", .jstr "a"), ("description", .jstr "b"),
       ("price", .jnum (mkRat (-1) 100)), ("stock", .jnum (mkRat 0 1)),
       ("image_url", .jstr "https://example.com")] ⟨[], 0⟩).1 =
      some ⟨400, .jsonErrors [⟨"price", "Price must be a positive float"⟩]⟩ ∧
    productValidationRules
      [("name", .jstr "a"), ("description", .jstr "b"),
       ("price", .jnum (mkRat 0 1)), ("stock", .jnum (mkRat (-1) 1)),
       ("image_url", .jstr "https://example.com")] =
      [⟨"stock", "Stock must be a positive integer"⟩] ∧
    (routePostProduct
      [("name", .jstr "a"), ("description", .jstr "b"),
       ("price", .jnum (mkRat 0 1)), ("stock", .jnum (mkRat (-1) 1)),
       ("image_url", .jstr "https://example.com")] ⟨[], 0⟩).1 =
      some ⟨400, .jsonErrors [⟨"stock", "Stock must be a positive integer"⟩]⟩ ∧
    (routePutProduct "aaaaaaaaaaaaaaaaaaaaaaaa"
      [("name", .jstr "a"), ("description", .jstr "b"),
       ("price", .jnum (mkRat 0 1)), ("stock", .jnum (mkRat (-1) 1)),
       ("image_url", .jstr "https://example.com")] ⟨[], 0⟩).1 =
      some ⟨400, .jsonErrors [⟨"stock", "Stock must be a positive integer"⟩]⟩ := by
  decide

/-- Claim C7: for a syntactically valid id, the gateway delete resolves
with the driver value (the removed document, or null when none
matched): a matching document is removed and answered 200, a missing
one yields the 404 "Product not found" response with the store
unchanged, and the delete continuation throws its error exactly when
the driver result reports a store-level failure. -/
theorem delete_found_removed_missing_404 (id : String) (i : ObjectId) (d : Doc)
    (s : Store) (r : FindDeleteResult)
    (hid : ObjectId.parse id = some i) :
    (DB.delete id s).1 = .ok (s.findOne i) ∧
    (s.findOne i = some d →
      (routeDeleteProduct id s).1 = some ⟨200, .jsonDoc d⟩) ∧
    (s.findOne i = none →
      routeDeleteProduct id s = (some ⟨404, .text "Product not found"⟩, s)) ∧
    (DB.deleteThen r = .error (.opError "Error deleting product") ↔ r.ok = false) := by
  refine ⟨?_, ?_, ?_, ?_⟩
  · cases hf : s.findOne i <;>
      simp [DB.delete, hid, Store.findOneAndDelete, hf, DB.deleteThen]
  · intro hf
    simp [routeDeleteProduct, DB.delete, hid, Store.findOneAndDelete, hf, DB.deleteThen]
  · intro hf
    simp [routeDeleteProduct, DB.delete, hid, Store.findOneAndDelete, hf, DB.deleteThen]
  · cases hr : r.ok <;> simp [DB.deleteThen, hr]

theorem delete_found_removed_missing_404_witness :
    ObjectId.parse "aaaaaaaaaaaaaaaaaaaaaaaa" = some ⟨"aaaaaaaaaaaaaaaaaaaaaaaa"⟩ ∧
    ((DB.delete "aaaaaaaaaaaaaaaaaaaaaaaa"
        (⟨[], 0⟩ : Store)).1 =
      .ok ((⟨[], 0⟩ : Store).findOne ⟨"aaaaaaaaaaaaaaaaaaaaaaaa"⟩) ∧
     ((⟨[], 0⟩ : Store).findOne ⟨"aaaaaaaaaaaaaaaaaaaaaaaa"⟩ = some mrKrabs →
      (routeDeleteProduct "aaaaaaaaaaaaaaaaaaaaaaaa" ⟨[], 0⟩).1 =
        some ⟨200, .jsonDoc mrKrabs⟩) ∧
     ((⟨[], 0⟩ : Store).findOne ⟨"aaaaaaaaaaaaaaaaaaaaaaaa"⟩ = none →
      routeDeleteProduct "aaaaaaaaaaaaaaaaaaaaaaaa" ⟨[], 0⟩ =
        (some ⟨404, .text "Product not found"⟩, ⟨[], 0⟩)) ∧
     (DB.deleteThen ⟨false, none⟩ =
        .error (.opError "Error deleting product") ↔
      (⟨false, none⟩ : FindDeleteResult).ok = false)) :=
  ⟨by decide,
    delete_found_removed_missing_404 "aaaaaaaaaaaaaaaaaaaaaaaa"
      ⟨"aaaaaaaaaaaaaaaaaaaaaaaa"⟩ mrKrabs ⟨[], 0⟩ ⟨false, none⟩ (by decide)⟩

/-- Claim C8: the gateway update never resolves to a falsy value: for
every id, document and store it either resolves with the (possibly
id-coerced) given document — an object, hence truthy — or rejects
(with the count error on a parsed id, with the synchronous identifier
error otherwise); consequently, in every execution — any id, body and
store, including malformed and unmatched ids — the PUT route never
produces its 404 "Product not found" response. -/
theorem update_resolves_truthy_put_404_unreachable (id : String) (i : ObjectId)
    (product body : Doc) (s : Store) :
    (ObjectId.parse id = some i →
      (DB.update id product s).1 = .ok (DB.updateCoerce i product) ∨
      (DB.update id product s).1 = .error (.opError "Error updating product")) ∧
    (ObjectId.parse id = none →
      (DB.update id product s).1 = .error .invalidId) ∧
    docTruthy (DB.updateCoerce i product) = true ∧
    (routePutProduct id body s).1 ≠ some ⟨404, .text "Product not found"⟩ := by
  refine ⟨?_, ?_, rfl, ?_⟩
  · intro hid
    by_cases hc : ((s.replaceOne i (DB.updateCoerce i product)).1.modifiedCount == 1
        || (s.replaceOne i (DB.updateCoerce i product)).1.matchedCount == 1) = true
    · left
      simp [DB.update, hid, DB.updateThen, hc]
    · right
      simp [DB.update, hid, DB.updateThen, hc]
  · intro hnone
    simp [DB.update, hnone]
  · cases hv : (productValidationRules body).isEmpty with
    | false => simp [routePutProduct, routePutWith, hv]
    | true =>
        rcases hu : DB.update id body s with ⟨r, s2⟩
        rcases r with e | d2
        · rcases e with _ | msg <;> simp [routePutProduct, routePutWith, hv, hu]
        · simp [routePutProduct, routePutWith, hv, hu, docTruthy]

theorem update_resolves_truthy_put_404_unreachable_witness :
    (ObjectId.parse "aaaaaaaaaaaaaaaaaaaaaaaa" = some ⟨"aaaaaaaaaaaaaaaaaaaaaaaa"⟩ →
      (DB.update "aaaaaaaaaaaaaaaaaaaaaaaa" mrKrabs
          ⟨[setField mrKrabs "_id" (.joid ⟨"aaaaaaaaaaaaaaaaaaaaaaaa"⟩)], 1⟩).1 =
        .ok (DB.updateCoerce ⟨"aaaaaaaaaaaaaaaaaaaaaaaa"⟩ mrKrabs) ∨
      (DB.update "aaaaaaaaaaaaaaaaaaaaaaaa" mrKrabs
          ⟨[setField mrKrabs "_id" (.joid ⟨"aaaaaaaaaaaaaaaaaaaaaaaa"⟩)], 1⟩).1 =
        .error (.opError "Error updating product")) ∧
    (ObjectId.parse "aaaaaaaaaaaaaaaaaaaaaaaa" = none →
      (DB.update "aaaaaaaaaaaaaaaaaaaaaaaa" mrKrabs
          ⟨[setField mrKrabs "_id" (.joid ⟨"aaaaaaaaaaaaaaaaaaaaaaaa"⟩)], 1⟩).1 =
        .error .invalidId) ∧
    docTruthy (DB.updateCoerce ⟨"aaaaaaaaaaaaaaaaaaaaaaaa"⟩ mrKrabs) = true ∧
    (routePutProduct "aaaaaaaaaaaaaaaaaaaaaaaa" mrKrabs
        ⟨[setField mrKrabs "_id" (.joid ⟨"aaaaaaaaaaaaaaaaaaaaaaaa"⟩)], 1⟩).1 ≠
      some ⟨404, .text "Product not found"⟩ :=
  update_resolves_truthy_put_404_unreachable "aaaaaaaaaaaaaaaaaaaaaaaa"
    ⟨"aaaaaaaaaaaaaaaaaaaaaaaa"⟩ mrKrabs mrKrabs
    ⟨[setField mrKrabs "_id" (.joid ⟨"aaaaaaaaaaaaaaaaaaaaaaaa"⟩)], 1⟩

/-- Claim C9: on an acknowledged insert the gateway resolves with the
input document whose `_id` field now holds the assigned insertedId;
every field other than `_id` reads unchanged, and the key set either
stays the same or only gains `_id`. -/
theorem insert_mutates_only_id (product : Doc) (r : InsertOneResult) (k : String)
    (hack : r.acknowledged = true) (hk : k ≠ "_id") :
    DB.insertThen product r = .ok (setField product "_id" (.joid r.insertedId)) ∧
    getField (setField product "_id" (.joid r.insertedId)) "_id" =
      some (.joid r.insertedId) ∧
    getField (setField product "_id" (.joid r.insertedId)) k = getField product k ∧
    (keys (setField product "_id" (.joid r.insertedId)) = keys product ∨
      keys (setField product "_id" (.joid r.insertedId)) = keys product ++ ["_id"]) :=
  ⟨by simp [DB.insertThen, hack],
    getField_setField_same product "_id" _,
    getField_setField_ne product "_id" k _ hk,
    keys_setField product "_id" _⟩

theorem insert_mutates_only_id_witness :
    (⟨true, ⟨"aaaaaaaaaaaaaaaaaaaaaaaa"⟩⟩ : InsertOneResult).acknowledged = true ∧
    ("name" : String) ≠ "_id" ∧
    (DB.insertThen mrKrabs ⟨true, ⟨"aaaaaaaaaaaaaaaaaaaaaaaa"⟩⟩ =
      .ok (setField mrKrabs "_id" (.joid ⟨"aaaaaaaaaaaaaaaaaaaaaaaa"⟩)) ∧
     getField (setField mrKrabs "_id" (.joid ⟨"aaaaaaaaaaaaaaaaaaaaaaaa"⟩)) "_id" =
      some (.joid ⟨"aaaaaaaaaaaaaaaaaaaaaaaa"⟩) ∧
     getField (setField mrKrabs "_id" (.joid ⟨"aaaaaaaaaaaaaaaaaaaaaaaa"⟩)) "name" =
      getField mrKrabs "name" ∧
     (keys (setField mrKrabs "_id" (.joid ⟨"aaaaaaaaaaaaaaaaaaaaaaaa"⟩)) =
        keys mrKrabs ∨
      keys (setField mrKrabs "_id" (.joid ⟨"aaaaaaaaaaaaaaaaaaaaaaaa"⟩)) =
        keys mrKrabs ++ ["_id"])) :=
  ⟨by decide, by decide,
    insert_mutates_only_id mrKrabs ⟨true, ⟨"aaaaaaaaaaaaaaaaaaaaaaaa"⟩⟩ "name"
      (by decide) (by decide)⟩

/-- Claim C10: in the variant route definition with the `image_url`
rule disabled, any body carrying an `image_url` field trips the
checkExact rule — the field is no longer known — so POST and PUT answer
400 with the "No additional fields allowed" error; in particular the
specification scenario payload is accepted by the main rule set and
rejected by the variant, so the toggle changes which bodies are
accepted. -/
theorem variant_rejects_image_url_bodies (id : String) (body : Doc) (v : JValue)
    (s : Store) (h : getField body "image_url" = some v) :
    (⟨"", "No additional fields allowed"⟩ : ValidationError) ∈
      Variant.productValidationRules body ∧
    routePostProductVariant body s =
      (some ⟨400, .jsonErrors (Variant.productValidationRules body)⟩, s) ∧
    routePutProductVariant id body s =
      (some ⟨400, .jsonErrors (Variant.productValidationRules body)⟩, s) ∧
    productValidationRules mrKrabs = [] ∧
    Variant.productValidationRules mrKrabs ≠ [] := by
  obtain ⟨kv, hmem, hkey⟩ := exists_key_of_getField_some body "image_url" v h
  have hunk : kv.1 ∉ Variant.knownFields := by
    rw [hkey]
    decide
  have hall := all_contains_eq_false Variant.knownFields body kv hmem hunk
  have hex : errExactWith Variant.knownFields body =
      [⟨"", "No additional fields allowed"⟩] := by
    unfold errExactWith
    rw [hall]
    simp
  have hmem2 : (⟨"", "No additional fields allowed"⟩ : ValidationError) ∈
      Variant.productValidationRules body := by
    unfold Variant.productValidationRules
    rw [hex]
    exact List.mem_append_right _ (List.mem_cons_self _ _)
  have hie : (Variant.productValidationRules body).isEmpty = false :=
    isEmpty_eq_false_of_mem hmem2
  exact ⟨hmem2,
    by simp [routePostProductVariant, routePostWith, hie],
    by simp [routePutProductVariant, routePutWith, hie],
    by decide, by decide⟩

theorem variant_rejects_image_url_bodies_witness :
    getField mrKrabs "image_url" = some (.jstr "https://example.com") ∧
    ((⟨"", "No additional fields allowed"⟩ : ValidationError) ∈
      Variant.productValidationRules mrKrabs ∧
     routePostProductVariant mrKrabs ⟨[], 0⟩ =
      (some ⟨400, .jsonErrors (Variant.productValidationRules mrKrabs)⟩, ⟨[], 0⟩) ∧
     routePutProductVariant "aaaaaaaaaaaaaaaaaaaaaaaa" mrKrabs ⟨[], 0⟩ =
      (some ⟨400, .jsonErrors (Variant.productValidationRules mrKrabs)⟩, ⟨[], 0⟩) ∧
     productValidationRules mrKrabs = [] ∧
     Variant.productValidationRules mrKrabs ≠ []) :=
  ⟨by decide,
    variant_rejects_image_url_bodies "aaaaaaaaaaaaaaaaaaaaaaaa" mrKrabs
      (.jstr "https://example.com") ⟨[], 0⟩ (by decide)⟩

end ProductService
